import Mathlib

/-!
Verification of the A-record lookup slice of the `rust-c-ares` resolver
binding (`src/a.rs`), against a wire-codec model of the C parsing routine
`ares_parse_a_reply` written from the resolver specification.

The Rust code in `src/a.rs` is embedded directly: `AResults`,
`AResultsIter`, `AResult`, `AResults::parse_from`, `AResults::iter` and the
C-ABI callback `query_a_callback`.  The crate modules `types`, `error` and
`utils`, and the C library routine `ares_parse_a_reply`, are not among the
provided sources; each of their definitions below is modelled from the spec
and marked as such in its doc comment.
-/

/-- Modelled from the spec: the capacity constant `MAX_ADDRTTLS` from the
crate's `types` module (not among the provided sources).  It is the fixed
length of the address/TTL array that `parse_from` hands to the C parser. -/
def MAX_ADDRTTLS : Nat := 32

/-- Modelled from the spec: the C `struct in_addr` held in wire (network)
byte order, represented by its four octets. -/
structure In_addr where
  o0 : Nat
  o1 : Nat
  o2 : Nat
  o3 : Nat
  deriving DecidableEq, Repr

instance : Inhabited In_addr := ⟨⟨0, 0, 0, 0⟩⟩

/-- The `ares_addrttl` record from the C library bindings
(`c_ares_sys::Struct_ares_addrttl`): one IPv4 address and its TTL, held by
value. -/
structure Struct_ares_addrttl where
  ipaddr : In_addr
  ttl : Int
  deriving DecidableEq, Repr

instance : Inhabited Struct_ares_addrttl := ⟨⟨default, 0⟩⟩

/-- Shallow model of `std::net::Ipv4Addr`: four octets. -/
structure Ipv4Addr where
  a : Nat
  b : Nat
  c : Nat
  d : Nat
  deriving DecidableEq, Repr

/-- Modelled from the spec: `utils::ipv4_from_in_addr` (the `utils` module is
not among the provided sources) turns a wire-order `in_addr` into an
`Ipv4Addr`. -/
def ipv4_from_in_addr (x : In_addr) : Ipv4Addr := ⟨x.o0, x.o1, x.o2, x.o3⟩

/-- Modelled from the spec: the wire codec's decode-error taxonomy
(truncated data, record-count mismatch, bad compression pointer, unsupported
class, other malformed data). -/
inductive ParseErr where
  | Truncated
  | CountMismatch
  | BadCompressionPointer
  | UnsupportedClass
  | FormErr
  deriving DecidableEq, Repr

/-- The C library's success status code. -/
def ARES_SUCCESS : Nat := 0

/-- Modelled from the spec: a fixed nonzero numeric status code for each
decode error, as returned by the C-style parsing routine (zero is success;
the particular nonzero values are immaterial). -/
def ParseErr.code : ParseErr → Nat
  | .Truncated => 100
  | .CountMismatch => 101
  | .BadCompressionPointer => 102
  | .UnsupportedClass => 103
  | .FormErr => 104

/-- Modelled from the spec: the crate's error enumeration (the `error` module
is not among the provided sources), following the spec's error taxonomy. -/
inductive AresError where
  | Truncated
  | CountMismatch
  | BadCompressionPointer
  | UnsupportedClass
  | FormErr
  | Timeout
  | Cancelled
  | Other (code : Nat)
  deriving DecidableEq, Repr

/-- Modelled from the spec: `utils::ares_error` maps a nonzero C status code
to the crate's error enumeration. -/
def ares_error (status : Nat) : AresError :=
  if status = 100 then .Truncated
  else if status = 101 then .CountMismatch
  else if status = 102 then .BadCompressionPointer
  else if status = 103 then .UnsupportedClass
  else if status = 104 then .FormErr
  else if status = 12 then .Timeout
  else if status = 24 then .Cancelled
  else .Other status

/-- Checked read of one byte of the wire buffer; `none` when the offset is
outside the buffer (the model has no other way to read memory, so every read
is bounds-checked by construction). -/
def byteAt (buf : List Nat) (i : Nat) : Option Nat := buf.get? i

/-- Checked read of a big-endian 16-bit field at offset `i`. -/
def read16 (buf : List Nat) (i : Nat) : Option Nat :=
  match byteAt buf i, byteAt buf (i + 1) with
  | some b0, some b1 => some (b0 * 256 + b1)
  | _, _ => none

/-- Checked read of a big-endian 32-bit field at offset `i`. -/
def read32 (buf : List Nat) (i : Nat) : Option Nat :=
  match read16 buf i, read16 buf (i + 2) with
  | some hi, some lo => some (hi * 65536 + lo)
  | _, _ => none

/-- Modelled from the spec: a resource-record TTL is clamped to the
non-negative signed 32-bit range (values with the sign bit set become 0). -/
def clampTtl (v : Nat) : Int := if v < 2147483648 then (v : Int) else 0

/-- Modelled from the spec: skip one (possibly compressed) DNS name starting
at `pos`, returning the offset just past it.  A label-length byte walks that
many bytes; a zero byte ends the name; a compression pointer (top two bits
set) ends the name after its two bytes and must point strictly backward; the
reserved tags 64..191 are malformed.  The fuel argument only bounds the
recursion and is always called with more fuel than the buffer has bytes. -/
def skipName (buf : List Nat) : Nat → Nat → Except ParseErr Nat
  | 0, _ => .error .Truncated
  | fuel + 1, pos =>
    match byteAt buf pos with
    | none => .error .Truncated
    | some b =>
      if b = 0 then .ok (pos + 1)
      else if 192 ≤ b then
        match byteAt buf (pos + 1) with
        | none => .error .Truncated
        | some b2 =>
          if (b - 192) * 256 + b2 < pos then .ok (pos + 2)
          else .error .BadCompressionPointer
      else if b ≤ 63 then skipName buf fuel (pos + 1 + b)
      else .error .FormErr

/-- Modelled from the spec: skip the question section, `k` entries each being
a name followed by the 2-byte QTYPE and 2-byte QCLASS fields. -/
def skipQuestions (buf : List Nat) (fuel : Nat) : Nat → Nat → Except ParseErr Nat
  | 0, pos => .ok pos
  | k + 1, pos =>
    match skipName buf fuel pos with
    | .error e => .error e
    | .ok pos1 =>
      if pos1 + 4 ≤ buf.length then skipQuestions buf fuel k (pos1 + 4)
      else .error .Truncated

/-- Modelled from the spec: decode one resource record starting at `pos`.
Reads the name, then TYPE, CLASS, TTL and RDLENGTH; rejects an RDLENGTH that
runs past the end of the buffer as truncation; rejects a class other than IN;
decodes an A record's four address octets (an A record's RDLENGTH must be 4)
and clamps its TTL; skips records of any other type.  Returns the decoded
record (if the record was an A record) and the offset just past the record. -/
def parseOneRR (buf : List Nat) (fuel pos : Nat) :
    Except ParseErr (Option Struct_ares_addrttl × Nat) :=
  match skipName buf fuel pos with
  | .error e => .error e
  | .ok pos1 =>
    match read16 buf pos1, read16 buf (pos1 + 2),
          read32 buf (pos1 + 4), read16 buf (pos1 + 8) with
    | some rtype, some rclass, some ttl32, some rdlen =>
      if buf.length < pos1 + 10 + rdlen then .error .Truncated
      else if rclass ≠ 1 then .error .UnsupportedClass
      else if rtype = 1 then
        if rdlen ≠ 4 then .error .FormErr
        else
          match byteAt buf (pos1 + 10), byteAt buf (pos1 + 11),
                byteAt buf (pos1 + 12), byteAt buf (pos1 + 13) with
          | some x0, some x1, some x2, some x3 =>
            .ok (some ⟨⟨x0, x1, x2, x3⟩, clampTtl ttl32⟩, pos1 + 14)
          | _, _, _, _ => .error .Truncated
      else .ok (none, pos1 + 10 + rdlen)
    | _, _, _, _ => .error .Truncated

/-- Modelled from the spec: decode `k` resource records of the answer section
starting at `pos`, collecting the A records in order.  Reaching the end of
the buffer at a record boundary with records still owed by the header count
is a count mismatch; running out of bytes inside a record is truncation. -/
def parseRRs (buf : List Nat) (fuel : Nat) : Nat → Nat → Except ParseErr (List Struct_ares_addrttl)
  | 0, _ => .ok []
  | k + 1, pos =>
    if buf.length ≤ pos then .error .CountMismatch
    else
      match parseOneRR buf fuel pos with
      | .error e => .error e
      | .ok (rec?, pos2) =>
        match parseRRs buf fuel k pos2 with
        | .error e => .error e
        | .ok rest =>
          match rec? with
          | some r => .ok (r :: rest)
          | none => .ok rest

/-- The position walk of the answer-record loop: the traversal `parseRRs`
performs, keeping only the offset.  `walkRRs buf fuel j pos0 = .ok pos` says
the decoder, started at `pos0`, passes `j` whole records cleanly and reaches
offset `pos`; it is used to address any record of the answer section, not
just the first. -/
def walkRRs (buf : List Nat) (fuel : Nat) : Nat → Nat → Except ParseErr Nat
  | 0, pos => .ok pos
  | j + 1, pos =>
    if buf.length ≤ pos then .error .CountMismatch
    else
      match parseOneRR buf fuel pos with
      | .error e => .error e
      | .ok (_, pos2) => walkRRs buf fuel j pos2

/-- Modelled from the spec: decode an A-query reply.  Validates that the
12-byte header is present, reads QDCOUNT and ANCOUNT, skips the question
section, then walks ANCOUNT answer records collecting the A records.
Hostnames are validated and skipped but not extracted, because
`AResults::parse_from` passes a null host pointer to the C routine. -/
def parseAReplyCore (data : List Nat) : Except ParseErr (List Struct_ares_addrttl) :=
  if data.length < 12 then .error .Truncated
  else
    match read16 data 4, read16 data 6 with
    | some qd, some an =>
      match skipQuestions data (data.length + 1) qd 12 with
      | .error e => .error e
      | .ok pos => parseRRs data (data.length + 1) an pos
    | _, _ => .error .Truncated

/-- Modelled from the spec: the C routine `ares_parse_a_reply` as called with
a null host pointer.  `capacity` is the caller's incoming `*naddrttls`; the
routine stores at most that many address/TTL records and reports how many it
stored.  Returns the status code (zero on success) and the stored records. -/
def ares_parse_a_reply (data : List Nat) (capacity : Nat) :
    Nat × List Struct_ares_addrttl :=
  match parseAReplyCore data with
  | .error e => (e.code, [])
  | .ok recs => (ARES_SUCCESS, recs.take capacity)

/-- The result of a successful A lookup (`src/a.rs` lines 22-25): a record
count plus the fixed-size array of address/TTL records, both held by value. -/
structure AResults where
  naddrttls : Nat
  addrttls : Fin MAX_ADDRTTLS → Struct_ares_addrttl

/-- The contents of a single A record (`src/a.rs` lines 28-31); the borrowed
`ares_addrttl` is held by value in the embedding. -/
structure AResult where
  addrttl : Struct_ares_addrttl
  deriving DecidableEq, Repr

/-- `AResults::parse_from` (`src/a.rs` lines 35-53): call the C parser with
capacity `MAX_ADDRTTLS`; on a nonzero status return `Err(ares_error(status))`,
otherwise return the populated `AResults`.  Array slots beyond the stored
count model the never-written tail of the Rust array and hold `default`. -/
def AResults.parse_from (data : List Nat) : Except AresError AResults :=
  match ares_parse_a_reply data MAX_ADDRTTLS with
  | (parse_status, stored) =>
    if parse_status ≠ ARES_SUCCESS then Except.error (ares_error parse_status)
    else Except.ok ⟨stored.length, fun i => stored.getD i.val default⟩

/-- Iterator of `AResult`s (`src/a.rs` lines 80-83). -/
structure AResultsIter where
  next : Nat
  results : AResults

/-- `AResults::iter` (`src/a.rs` lines 56-61). -/
def AResults.iter (r : AResults) : AResultsIter := ⟨0, r⟩

/-- Rust's checked array indexing `self.results.addrttls[next]`: `some` when
the index is within the fixed-size array, `none` for the panic on an
out-of-bounds index. -/
def arrayIndex (f : Fin MAX_ADDRTTLS → Struct_ares_addrttl) (i : Nat) :
    Option Struct_ares_addrttl :=
  if h : i < MAX_ADDRTTLS then some (f ⟨i, h⟩) else none

/-- `Iterator::next` for `AResultsIter` (`src/a.rs` lines 85-99).  The outer
`Option` models the possible indexing panic (`none`); a normal return is
`some (yielded item if any, iterator after the call)`. -/
def AResultsIter.step (it : AResultsIter) : Option (Option AResult × AResultsIter) :=
  if it.results.naddrttls ≤ it.next then some (none, it)
  else
    match arrayIndex it.results.addrttls it.next with
    | none => none
    | some x => some (some ⟨x⟩, ⟨it.next + 1, it.results⟩)

/-- Run the iterator at most `k` steps, collecting everything it yields and
stopping early when it reports exhaustion; `none` if any step panics. -/
def drive : Nat → AResultsIter → Option (List AResult × AResultsIter)
  | 0, it => some ([], it)
  | k + 1, it =>
    match it.step with
    | none => none
    | some (none, it2) => some ([], it2)
    | some (some a, it2) =>
      match drive k it2 with
      | none => none
      | some (l, itf) => some (a :: l, itf)

/-- `AResult::ipv4` (`src/a.rs` lines 112-114). -/
def AResult.ipv4 (r : AResult) : Ipv4Addr := ipv4_from_in_addr r.addrttl.ipaddr

/-- `AResult::ttl` (`src/a.rs` lines 117-119). -/
def AResult.ttl (r : AResult) : Int := r.addrttl.ttl

/-- The result value `query_a_callback` computes (`src/a.rs` lines 137-142):
`Err(ares_error(status))` when the status is nonzero, otherwise
`AResults::parse_from` applied to the `alen`-byte response slice (`abuf` here
is that slice). -/
def callbackResult (status : Nat) (abuf : List Nat) : Except AresError AResults :=
  if status ≠ ARES_SUCCESS then Except.error (ares_error status)
  else AResults.parse_from abuf

/-- `query_a_callback` (`src/a.rs` lines 130-145).  The raw context pointer
holding the boxed completion handler is modelled as an `Option` slot:
`Box::from_raw` takes the handler out of the slot (leaving `none`) and the
call consumes it.  Returns the handler's output (if a handler was present)
together with the slot after the call. -/
def query_a_callback {α : Type} (slot : Option (Except AresError AResults → α))
    (status : Nat) (abuf : List Nat) :
    Option α × Option (Except AresError AResults → α) :=
  match slot with
  | none => (none, none)
  | some handler => (some (handler (callbackResult status abuf)), none)

/-- A well-formed reply to an A query for `example.com`: header (id 0, flags
0x8180, QDCOUNT 1, ANCOUNT 1), the question `example.com` type A class IN,
and one answer whose name is a compression pointer to offset 12, type A,
class IN, TTL 300, RDLENGTH 4, address 93.184.216.34. -/
def exampleComReply : List Nat :=
  [0, 0, 129, 128, 0, 1, 0, 1, 0, 0, 0, 0,
   7, 101, 120, 97, 109, 112, 108, 101, 3, 99, 111, 109, 0, 0, 1, 0, 1,
   192, 12, 0, 1, 0, 1, 0, 0, 1, 44, 0, 4, 93, 184, 216, 34]

/-- A reply with no questions and two A records: the first with address
1.2.3.4 and TTL 300, the second with address 5.6.7.8 and TTL 100. -/
def twoRecordReply : List Nat :=
  [0, 0, 0, 0, 0, 0, 0, 2, 0, 0, 0, 0,
   0, 0, 1, 0, 1, 0, 0, 1, 44, 0, 4, 1, 2, 3, 4,
   0, 0, 1, 0, 1, 0, 0, 0, 100, 0, 4, 5, 6, 7, 8]

/-- A bare 12-byte header claiming ANCOUNT 1 with no answer bytes at all:
the record count does not match the records actually present. -/
def headerOnlyReply : List Nat :=
  [0, 0, 0, 0, 0, 0, 0, 1, 0, 0, 0, 0]

/-- A reply whose single answer record declares RDLENGTH 5 while only 2 bytes
of RDATA remain in the buffer. -/
def shortRdataReply : List Nat :=
  [0, 0, 0, 0, 0, 0, 0, 1, 0, 0, 0, 0,
   0, 0, 1, 0, 1, 0, 0, 1, 44, 0, 5, 1, 2]

/-- A reply with ANCOUNT 2 whose first answer record is clean and whose
second answer record declares RDLENGTH 5 while only 2 bytes of RDATA remain
in the buffer. -/
def twoRecShortReply : List Nat :=
  [0, 0, 0, 0, 0, 0, 0, 2, 0, 0, 0, 0,
   0, 0, 1, 0, 1, 0, 0, 1, 44, 0, 4, 1, 2, 3, 4,
   0, 0, 1, 0, 1, 0, 0, 0, 100, 0, 5, 9, 9]

/-- A reply with ANCOUNT 2 that contains exactly one complete answer record
and then ends at the record boundary: one record short of its count. -/
def oneOfTwoReply : List Nat :=
  [0, 0, 0, 0, 0, 0, 0, 2, 0, 0, 0, 0,
   0, 0, 1, 0, 1, 0, 0, 1, 44, 0, 4, 1, 2, 3, 4]

/-- The `AResults` decoded from `exampleComReply` (a successful parse). -/
def exampleAResults : AResults :=
  match AResults.parse_from exampleComReply with
  | .ok r => r
  | .error _ => ⟨0, fun _ => default⟩

/-- The `AResults` decoded from `twoRecordReply` (a successful parse). -/
def twoRecAResults : AResults :=
  match AResults.parse_from twoRecordReply with
  | .ok r => r
  | .error _ => ⟨0, fun _ => default⟩

/-- The A records of `twoRecordReply` as decoded by the core parser. -/
def twoRecRecords : List Struct_ares_addrttl :=
  match parseAReplyCore twoRecordReply with
  | .ok l => l
  | .error _ => []

/-- Everything the A-results API yields for a parsed result: the
address/TTL pair of each iterated record, in iteration order. -/
def yieldedSummary (r : AResults) : List (Ipv4Addr × Int) :=
  match drive (r.naddrttls + 1) r.iter with
  | some (l, _) => l.map (fun a => (a.ipv4, a.ttl))
  | none => []

/-- The TTL values the A-results API yields, in iteration order. -/
def yieldedTtls (r : AResults) : List Int :=
  match drive (r.naddrttls + 1) r.iter with
  | some (l, _) => l.map AResult.ttl
  | none => []

/-- C1: for every invocation of `query_a_callback` the completion handler in
the context slot is invoked exactly once: the call takes the boxed handler
out of the slot, applies it to the computed result, and leaves the slot
empty, so any later invocation with that slot invokes no handler. -/
theorem query_a_callback_once {α : Type} (h : Except AresError AResults → α)
    (status : Nat) (abuf : List Nat) :
    query_a_callback (some h) status abuf = (some (h (callbackResult status abuf)), none)
    ∧ ∀ (status2 : Nat) (abuf2 : List Nat),
        query_a_callback (query_a_callback (some h) status abuf).2 status2 abuf2
          = ((none : Option α), (none : Option (Except AresError AResults → α))) := by
  exact ⟨rfl, fun _ _ => rfl⟩

/-- C2: in `query_a_callback`, a nonzero status hands the handler
`Err(ares_error(status))` and the outcome is independent of the response
buffer (the buffer is never read); a zero status hands the handler exactly
`AResults::parse_from` applied to the response slice. -/
theorem query_a_callback_result {α : Type} (h : Except AresError AResults → α)
    (status : Nat) (abuf : List Nat) :
    (status ≠ ARES_SUCCESS →
      (query_a_callback (some h) status abuf).1
          = some (h (Except.error (ares_error status)))
      ∧ ∀ abuf2 : List Nat,
          (query_a_callback (some h) status abuf2).1
            = (query_a_callback (some h) status abuf).1)
    ∧ (status = ARES_SUCCESS →
      (query_a_callback (some h) status abuf).1
          = some (h (AResults.parse_from abuf))) := by
  constructor
  · intro hs
    constructor
    · simp [query_a_callback, callbackResult, hs]
    · intro abuf2
      simp [query_a_callback, callbackResult, hs]
  · intro hs
    subst hs
    simp [query_a_callback, callbackResult]

/-- Witness for C2 at status 12 and two different buffers. -/
theorem query_a_callback_result_witness :
    (query_a_callback (some (fun r : Except AresError AResults => r)) 12 [1, 2]).1
      = some (Except.error (ares_error 12))
    ∧ (query_a_callback (some (fun r : Except AresError AResults => r)) 12 []).1
      = (query_a_callback (some (fun r : Except AresError AResults => r)) 12 [1, 2]).1 :=
  ⟨((query_a_callback_result (fun r => r) 12 [1, 2]).1 (by decide)).1,
   ((query_a_callback_result (fun r => r) 12 [1, 2]).1 (by decide)).2 []⟩

/-- C3: `AResults::parse_from` returns `Ok` exactly when the underlying
`ares_parse_a_reply` reports `ARES_SUCCESS`, and otherwise returns
`Err(ares_error(parse_status))`; there is no third outcome. -/
theorem parse_from_status_dichotomy (data : List Nat) :
    ((∃ r, AResults.parse_from data = Except.ok r) ↔
      (ares_parse_a_reply data MAX_ADDRTTLS).1 = ARES_SUCCESS)
    ∧ ((ares_parse_a_reply data MAX_ADDRTTLS).1 ≠ ARES_SUCCESS →
        AResults.parse_from data
          = Except.error (ares_error (ares_parse_a_reply data MAX_ADDRTTLS).1)) := by
  unfold AResults.parse_from
  cases har : ares_parse_a_reply data MAX_ADDRTTLS with
  | mk status stored =>
    by_cases hs : status = ARES_SUCCESS
    · subst hs
      simp
    · simp [hs]

/-- Witness for C3 on a buffer the parser rejects. -/
theorem parse_from_status_dichotomy_witness :
    AResults.parse_from headerOnlyReply
      = Except.error (ares_error (ares_parse_a_reply headerOnlyReply MAX_ADDRTTLS).1) :=
  (parse_from_status_dichotomy headerOnlyReply).2 (by decide)

/-- C8: the fixture reply to an A query for `example.com` with one A record
(address 93.184.216.34, TTL 300) parses successfully, and the resulting
`AResults` iterates over exactly one `AResult` whose `ipv4()` is
93.184.216.34 and whose `ttl()` is 300. -/
theorem parse_example_com :
    Except.map yieldedSummary (AResults.parse_from exampleComReply)
      = Except.ok [(⟨93, 184, 216, 34⟩, (300 : Int))] := by
  rfl

/-- C5: counterexample.  On a reply with two A records of TTLs 300 and 100,
the A-results API exposes exactly the per-record TTLs `[300, 100]`: the TTL
surfaced on the first record is 300, not the minimum 100, and `AResults`
carries no additional representative minimum-TTL value — its only TTL
surface is `AResult::ttl` on each individual record. -/
theorem ttl_not_minimum_counterexample :
    AResults.parse_from twoRecordReply = Except.ok twoRecAResults
    ∧ yieldedTtls twoRecAResults = [300, 100]
    ∧ (yieldedTtls twoRecAResults).head? = some 300
    ∧ (300 : Int) ≠ 100 := by
  exact ⟨rfl, rfl, rfl, by decide⟩

/-- Helper: a yielding iterator step happened strictly below the record
count, advanced the cursor by one and kept the same results. -/
theorem step_yield_elim (it : AResultsIter) (a : AResult) (it2 : AResultsIter)
    (h : it.step = some (some a, it2)) :
    it.next < it.results.naddrttls
    ∧ it2.next = it.next + 1 ∧ it2.results = it.results := by
  unfold AResultsIter.step at h
  split at h
  · simp at h
  · rename_i hlt
    cases harr : arrayIndex it.results.addrttls it.next with
    | none => rw [harr] at h; simp at h
    | some x =>
      rw [harr] at h
      simp only [Option.some.injEq, Prod.mk.injEq] at h
      obtain ⟨-, rfl⟩ := h
      exact ⟨by omega, rfl, rfl⟩

/-- Helper: however long it runs, the iterator yields at most the portion of
the record count beyond its starting cursor. -/
theorem drive_length_le :
    ∀ (k : Nat) (it : AResultsIter) (l : List AResult) (itf : AResultsIter),
      drive k it = some (l, itf) →
      l.length + it.next ≤ max it.next it.results.naddrttls := by
  intro k
  induction k with
  | zero =>
    intro it l itf h
    rw [drive] at h
    simp only [Option.some.injEq, Prod.mk.injEq] at h
    obtain ⟨h1, -⟩ := h
    rw [← h1]
    simp only [List.length_nil]
    omega
  | succ k ih =>
    intro it l itf h
    rw [drive] at h
    split at h
    next => exact absurd h (by simp)
    next it2 hstep =>
      simp only [Option.some.injEq, Prod.mk.injEq] at h
      obtain ⟨h1, -⟩ := h
      rw [← h1]
      simp only [List.length_nil]
      omega
    next a it2 hstep =>
      split at h
      next => exact absurd h (by simp)
      next l2 itf2 hd =>
        simp only [Option.some.injEq, Prod.mk.injEq] at h
        obtain ⟨h1, -⟩ := h
        rw [← h1]
        have hb := ih it2 l2 itf2 hd
        obtain ⟨hx1, hx2, hx3⟩ := step_yield_elim it a it2 hstep
        rw [hx2, hx3] at hb
        simp only [List.length_cons]
        omega

/-- Helper: a step taken with the cursor at or past the record count yields
nothing and leaves the iterator unchanged. -/
theorem step_at_end (j : Nat) (r : AResults) (h : r.naddrttls ≤ j) :
    AResultsIter.step ⟨j, r⟩ = some (none, ⟨j, r⟩) := by
  unfold AResultsIter.step
  rw [if_pos h]

/-- Helper: from any cursor `j` at most the record count, with the record
count within the array capacity, running the iterator long enough yields
exactly the stored records `j`, `j+1`, ... in order and leaves the cursor at
the record count. -/
theorem drive_run (r : AResults) (hle : r.naddrttls ≤ MAX_ADDRTTLS) :
    ∀ k j : Nat, j ≤ r.naddrttls → r.naddrttls - j < k →
      ∃ l : List AResult,
        drive k ⟨j, r⟩ = some (l, ⟨r.naddrttls, r⟩)
        ∧ l.length = r.naddrttls - j
        ∧ ∀ i : Nat, i < r.naddrttls - j →
            l.get? i = (arrayIndex r.addrttls (j + i)).map AResult.mk := by
  intro k
  induction k with
  | zero =>
    intro j hj hk
    exact absurd hk (by omega)
  | succ k ih =>
    intro j hj hk
    rcases Nat.lt_or_ge j r.naddrttls with hlt | hge
    · have hjM : j < MAX_ADDRTTLS := lt_of_lt_of_le hlt hle
      have hstep : AResultsIter.step ⟨j, r⟩
          = some (some ⟨r.addrttls ⟨j, hjM⟩⟩, ⟨j + 1, r⟩) := by
        unfold AResultsIter.step arrayIndex
        simp only
        rw [if_neg (by omega), dif_pos hjM]
      obtain ⟨l2, hd2, hlen2, hpt2⟩ := ih (j + 1) (by omega) (by omega)
      refine ⟨⟨r.addrttls ⟨j, hjM⟩⟩ :: l2, ?_, ?_, ?_⟩
      · rw [drive]
        simp only [hstep, hd2]
      · simp only [List.length_cons, hlen2]
        omega
      · intro i hi
        cases i with
        | zero =>
          simp only [List.get?_cons_zero, Nat.add_zero, arrayIndex, dif_pos hjM,
            Option.map_some']
        | succ i =>
          have hp := hpt2 i (by omega)
          rw [List.get?_cons_succ, hp, show j + 1 + i = j + (i + 1) from by omega]
    · have hjn : j = r.naddrttls := le_antisymm hj hge
      have hstep := step_at_end j r hge
      refine ⟨[], ?_, ?_, ?_⟩
      · rw [drive, hjn]
        rw [hjn] at hstep
        simp only [hstep]
      · simp only [List.length_nil]
        omega
      · intro i hi
        exact absurd hi (by omega)

/-- C9: every `AResults` produced by `parse_from` holds at most
`MAX_ADDRTTLS` records (the capacity handed to the C parser), and iterating
it yields at most `MAX_ADDRTTLS` items no matter how long the iterator is
driven. -/
theorem results_capped (data : List Nat) (r : AResults)
    (hp : AResults.parse_from data = Except.ok r) :
    r.naddrttls ≤ MAX_ADDRTTLS
    ∧ ∀ (k : Nat) (l : List AResult) (itf : AResultsIter),
        drive k r.iter = some (l, itf) → l.length ≤ MAX_ADDRTTLS := by
  have h1 : r.naddrttls ≤ MAX_ADDRTTLS := by
    unfold AResults.parse_from at hp
    split at hp
    next status stored har =>
      split at hp
      · exact absurd hp (by simp)
      · simp only [Except.ok.injEq] at hp
        rw [← hp]
        unfold ares_parse_a_reply at har
        split at har
        · simp only [Prod.mk.injEq] at har
          rw [← har.2]
          simp
        · simp only [Prod.mk.injEq] at har
          rw [← har.2]
          simp only [List.length_take]
          omega
  refine ⟨h1, ?_⟩
  intro k l itf hd
  have hb := drive_length_le k r.iter l itf hd
  simp only [AResults.iter] at hb
  omega

/-- Witness for C9 on the `example.com` fixture. -/
theorem results_capped_witness : exampleAResults.naddrttls ≤ MAX_ADDRTTLS :=
  (results_capped exampleComReply exampleAResults rfl).1

/-- C10: when the record count is at most `MAX_ADDRTTLS`, the iterator
yields exactly `naddrttls` items — the stored records at indices 0,
1, ... in increasing order, each exactly once — with every array access in
bounds (no step panics), and once exhausted every further call yields
nothing and leaves the iterator unchanged. -/
theorem iter_yields_all (r : AResults) (hle : r.naddrttls ≤ MAX_ADDRTTLS)
    (k : Nat) (hk : r.naddrttls < k) :
    ∃ l : List AResult,
      drive k r.iter = some (l, ⟨r.naddrttls, r⟩)
      ∧ l.length = r.naddrttls
      ∧ (∀ (i : Nat) (hi : i < r.naddrttls),
          l.get? i = some ⟨r.addrttls ⟨i, lt_of_lt_of_le hi hle⟩⟩)
      ∧ AResultsIter.step ⟨r.naddrttls, r⟩ = some (none, ⟨r.naddrttls, r⟩) := by
  obtain ⟨l, hd, hlen, hpt⟩ := drive_run r hle k 0 (Nat.zero_le _) (by omega)
  have hfix := step_at_end r.naddrttls r (le_refl _)
  refine ⟨l, ?_, by omega, ?_, hfix⟩
  · simpa only [AResults.iter] using hd
  · intro i hi
    have hp := hpt i (by omega)
    rw [Nat.zero_add] at hp
    rw [hp]
    simp only [arrayIndex, dif_pos (lt_of_lt_of_le hi hle), Option.map_some']

/-- Witness for C10 at the parsed `example.com` fixture. -/
theorem iter_yields_all_witness :
    AResultsIter.step ⟨exampleAResults.naddrttls, exampleAResults⟩
      = some (none, ⟨exampleAResults.naddrttls, exampleAResults⟩) := by
  obtain ⟨l, -, -, -, hfix⟩ := iter_yields_all exampleAResults (by decide) 2 (by decide)
  exact hfix

/-- C5 amended: `AResult::ttl` surfaces each record's own TTL — the TTL the
API yields at position `i` is exactly the TTL stored in record `i` — and no
separate minimum-TTL value exists on `AResults`. -/
theorem ttl_is_per_record (r : AResults) (hle : r.naddrttls ≤ MAX_ADDRTTLS)
    (i : Nat) (hi : i < r.naddrttls) :
    (yieldedTtls r).get? i = some ((r.addrttls ⟨i, lt_of_lt_of_le hi hle⟩).ttl) := by
  obtain ⟨l, hd, hlen, hpt⟩ :=
    drive_run r hle (r.naddrttls + 1) 0 (Nat.zero_le _) (by omega)
  unfold yieldedTtls
  simp only [AResults.iter, hd, List.get?_map]
  have hp := hpt i (by omega)
  rw [Nat.zero_add] at hp
  rw [hp]
  simp only [arrayIndex, dif_pos (lt_of_lt_of_le hi hle), Option.map_some']
  rfl

/-- Witness for the amended C5: the second record of the two-record fixture
yields its own TTL, 100. -/
theorem ttl_is_per_record_witness :
    (yieldedTtls twoRecAResults).get? 1 = some (100 : Int) := by
  have h := ttl_is_per_record twoRecAResults (by decide) 1 (by decide)
  exact h.trans rfl

/-- Helper: a successful byte read implies the offset is inside the buffer. -/
theorem byteAt_lt (buf : List Nat) (i b : Nat) (h : byteAt buf i = some b) :
    i < buf.length := by
  by_contra hc
  rw [byteAt, List.get?_eq_none.mpr (by omega)] at h
  exact absurd h (by simp)

/-- Helper: any in-bounds offset reads a byte. -/
theorem byteAt_isSome (buf : List Nat) (i : Nat) (h : i < buf.length) :
    ∃ v, byteAt buf i = some v := by
  cases hg : buf.get? i with
  | none =>
    rw [List.get?_eq_none] at hg
    omega
  | some v => exact ⟨v, hg⟩

/-- Helper: a successful 16-bit read implies both its bytes are in bounds. -/
theorem read16_lt (buf : List Nat) (i v : Nat) (h : read16 buf i = some v) :
    i + 1 < buf.length := by
  unfold read16 at h
  split at h
  next b0 b1 h0 h1 => exact byteAt_lt buf (i + 1) b1 h1
  next => exact absurd h (by simp)

/-- Helper: a 16-bit field whose two bytes are in bounds reads successfully. -/
theorem read16_isSome (buf : List Nat) (i : Nat) (h : i + 1 < buf.length) :
    ∃ v, read16 buf i = some v := by
  obtain ⟨b0, h0⟩ := byteAt_isSome buf i (by omega)
  obtain ⟨b1, h1⟩ := byteAt_isSome buf (i + 1) (by omega)
  exact ⟨b0 * 256 + b1, by simp only [read16, h0, h1]⟩

/-- Helper: a 32-bit field whose four bytes are in bounds reads successfully. -/
theorem read32_isSome (buf : List Nat) (i : Nat) (h : i + 3 < buf.length) :
    ∃ v, read32 buf i = some v := by
  obtain ⟨hi16, hh⟩ := read16_isSome buf i (by omega)
  obtain ⟨lo16, hl⟩ := read16_isSome buf (i + 2) (by omega)
  exact ⟨hi16 * 65536 + lo16, by simp only [read32, hh, hl]⟩

/-- Helper: a name that was skipped successfully started inside the buffer. -/
theorem skipName_pos_lt (buf : List Nat) (fuel pos q : Nat)
    (h : skipName buf fuel pos = .ok q) : pos < buf.length := by
  cases fuel with
  | zero => exact absurd h (by simp [skipName])
  | succ fuel =>
    rw [skipName] at h
    split at h
    next => exact absurd h (by simp)
    next b hb => exact byteAt_lt buf pos b hb

/-- Helper: skipping a name consumes at least one byte. -/
theorem skipName_ge (buf : List Nat) :
    ∀ fuel pos q : Nat, skipName buf fuel pos = .ok q → pos + 1 ≤ q := by
  intro fuel
  induction fuel with
  | zero =>
    intro pos q h
    exact absurd h (by simp [skipName])
  | succ fuel ih =>
    intro pos q h
    rw [skipName] at h
    split at h
    next => exact absurd h (by simp)
    next b hb =>
      split at h
      · simp only [Except.ok.injEq] at h
        omega
      · split at h
        · split at h
          next => exact absurd h (by simp)
          next b2 hb2 =>
            split at h
            · simp only [Except.ok.injEq] at h
              omega
            · exact absurd h (by simp)
        · split at h
          · have := ih (pos + 1 + b) q h
            omega
          · exact absurd h (by simp)

/-- Helper: a successfully decoded record occupies at least 11 bytes and ends
inside the buffer. -/
theorem parseOneRR_bounds (buf : List Nat) (fuel pos : Nat)
    (o : Option Struct_ares_addrttl) (pos2 : Nat)
    (h : parseOneRR buf fuel pos = .ok (o, pos2)) :
    pos + 11 ≤ pos2 ∧ pos2 ≤ buf.length := by
  unfold parseOneRR at h
  split at h
  next => exact absurd h (by simp)
  next pos1 hsn =>
    have hge := skipName_ge buf fuel pos pos1 hsn
    split at h
    next rtype rclass ttl32 rdlen h1 h2 h3 h4 =>
      split at h
      · exact absurd h (by simp)
      next hlen =>
        split at h
        · exact absurd h (by simp)
        · split at h
          · split at h
            · exact absurd h (by simp)
            next hrd4 =>
              have hr4 : rdlen = 4 := not_not.mp hrd4
              split at h
              next x0 x1 x2 x3 e0 e1 e2 e3 =>
                simp only [Except.ok.injEq, Prod.mk.injEq] at h
                obtain ⟨-, hp2⟩ := h
                constructor <;> omega
              next => exact absurd h (by simp)
          · simp only [Except.ok.injEq, Prod.mk.injEq] at h
            obtain ⟨-, hp2⟩ := h
            constructor <;> omega
    next => exact absurd h (by simp)

/-- Helper: decoding `k` records from a position inside the buffer consumes
at least 11 bytes per record, and yields at most `k` records. -/
theorem parseRRs_bounds (buf : List Nat) (fuel : Nat) :
    ∀ (k pos : Nat) (l : List Struct_ares_addrttl),
      pos ≤ buf.length → parseRRs buf fuel k pos = .ok l →
      pos + 11 * k ≤ buf.length ∧ l.length ≤ k := by
  intro k
  induction k with
  | zero =>
    intro pos l hp h
    rw [parseRRs] at h
    simp only [Except.ok.injEq] at h
    refine ⟨by omega, ?_⟩
    rw [← h]
    simp
  | succ k ih =>
    intro pos l hp h
    rw [parseRRs] at h
    split at h
    · exact absurd h (by simp)
    next hpos =>
      split at h
      next => exact absurd h (by simp)
      next rec? pos2 hone =>
        have hb := parseOneRR_bounds buf fuel pos rec? pos2 hone
        split at h
        next => exact absurd h (by simp)
        next rest hrest =>
          have hr := ih pos2 rest (by omega) hrest
          split at h
          next r =>
            simp only [Except.ok.injEq] at h
            rw [← h]
            refine ⟨by omega, ?_⟩
            simp only [List.length_cons]
            omega
          next =>
            simp only [Except.ok.injEq] at h
            rw [← h]
            exact ⟨by omega, by omega⟩

/-- Helper: skipping the question section never moves backward, and lands
inside the buffer whenever it started inside it. -/
theorem skipQuestions_bounds (buf : List Nat) (fuel : Nat) :
    ∀ k start pos : Nat, skipQuestions buf fuel k start = .ok pos →
      start ≤ pos ∧ (start ≤ buf.length → pos ≤ buf.length) := by
  intro k
  induction k with
  | zero =>
    intro start pos h
    rw [skipQuestions] at h
    simp only [Except.ok.injEq] at h
    exact ⟨by omega, fun hh => by omega⟩
  | succ k ih =>
    intro start pos h
    rw [skipQuestions] at h
    split at h
    next => exact absurd h (by simp)
    next pos1 hsn =>
      have hge := skipName_ge buf fuel start pos1 hsn
      split at h
      next hle4 =>
        have hr := ih (pos1 + 4) pos h
        exact ⟨by omega, fun _ => hr.2 (by omega)⟩
      next => exact absurd h (by simp)

/-- Helper: a record whose RDLENGTH runs past the buffer end makes the
answer-record loop fail with truncation, whatever count remains. -/
theorem parseRRs_overflow_here (buf : List Nat) (fuel k pos pos1 rdlen : Nat)
    (hk : 1 ≤ k)
    (hname : skipName buf fuel pos = .ok pos1)
    (hrd : read16 buf (pos1 + 8) = some rdlen)
    (hov : buf.length < pos1 + 10 + rdlen) :
    parseRRs buf fuel k pos = .error .Truncated := by
  have hpos : pos < buf.length := skipName_pos_lt buf fuel pos pos1 hname
  have h9 : pos1 + 8 + 1 < buf.length := read16_lt buf (pos1 + 8) rdlen hrd
  obtain ⟨t, ht⟩ := read16_isSome buf pos1 (by omega)
  obtain ⟨c, hcv⟩ := read16_isSome buf (pos1 + 2) (by omega)
  obtain ⟨T, hT⟩ := read32_isSome buf (pos1 + 4) (by omega)
  have hone : parseOneRR buf fuel pos = .error .Truncated := by
    simp only [parseOneRR, hname, ht, hcv, hT, hrd]
    rw [if_pos hov]
  obtain ⟨m, hm⟩ : ∃ m, k = m + 1 := ⟨k - 1, by omega⟩
  rw [hm, parseRRs, if_neg (by omega)]
  simp only [hone]

/-- Helper: an error hit after walking `j` records cleanly is the result of
the whole answer-record loop. -/
theorem parseRRs_walk_error (buf : List Nat) (fuel : Nat) :
    ∀ (j pos0 pos m : Nat) (e : ParseErr),
      walkRRs buf fuel j pos0 = .ok pos →
      parseRRs buf fuel m pos = .error e →
      parseRRs buf fuel (j + m) pos0 = .error e := by
  intro j
  induction j with
  | zero =>
    intro pos0 pos m e hw hp
    rw [walkRRs] at hw
    simp only [Except.ok.injEq] at hw
    rw [Nat.zero_add, hw]
    exact hp
  | succ j ih =>
    intro pos0 pos m e hw hp
    rw [walkRRs] at hw
    split at hw
    · exact absurd hw (by simp)
    next hpos =>
      split at hw
      next => exact absurd hw (by simp)
      next rec? pos2 hone =>
        have hrec := ih pos2 pos m e hw hp
        rw [show j + 1 + m = (j + m) + 1 from by omega, parseRRs, if_neg hpos]
        simp only [hone, hrec]

/-- C6: any resource record of the answer section whose RDLENGTH runs past
the end of the buffer — reached after any number `j` of clean records —
makes `parse_from` fail with the truncation decode error.  Every byte access
in the model is bounds-checked by construction, so no byte outside the input
buffer is ever read. -/
theorem rdlength_overflow_truncated (data : List Nat)
    (qd an j pos0 pos pos1 rdlen : Nat)
    (h12 : 12 ≤ data.length)
    (hqd : read16 data 4 = some qd)
    (han : read16 data 6 = some an)
    (hq : skipQuestions data (data.length + 1) qd 12 = .ok pos0)
    (hwalk : walkRRs data (data.length + 1) j pos0 = .ok pos)
    (hjan : j < an)
    (hname : skipName data (data.length + 1) pos = .ok pos1)
    (hrd : read16 data (pos1 + 8) = some rdlen)
    (hov : data.length < pos1 + 10 + rdlen) :
    AResults.parse_from data = Except.error AresError.Truncated := by
  have hloc : parseRRs data (data.length + 1) (an - j) pos = .error .Truncated :=
    parseRRs_overflow_here data (data.length + 1) (an - j) pos pos1 rdlen
      (by omega) hname hrd hov
  have hall := parseRRs_walk_error data (data.length + 1) j pos0 pos (an - j)
    .Truncated hwalk hloc
  rw [show j + (an - j) = an from by omega] at hall
  have hcore : parseAReplyCore data = .error .Truncated := by
    unfold parseAReplyCore
    rw [if_neg (by omega)]
    simp only [hqd, han, hq, hall]
  simp only [AResults.parse_from, ares_parse_a_reply, hcore]
  rfl

/-- Witness for C6: the RDLENGTH overflow is caught both on the second
record of a two-record reply (after one clean record) and on a first
record. -/
theorem rdlength_overflow_truncated_witness :
    AResults.parse_from twoRecShortReply = Except.error AresError.Truncated
    ∧ AResults.parse_from shortRdataReply = Except.error AresError.Truncated :=
  ⟨rdlength_overflow_truncated twoRecShortReply 0 2 1 12 27 28 5 (by decide)
      rfl rfl rfl rfl (by decide) rfl rfl (by decide),
   rdlength_overflow_truncated shortRdataReply 0 1 0 12 12 13 5 (by decide)
      rfl rfl rfl rfl (by decide) rfl rfl (by decide)⟩

/-- C7: on a successful decode the record count never exceeds what the
buffer length could represent (each record needs at least 11 bytes after the
12-byte header) and the number of returned records is at most ANCOUNT;
and an ANCOUNT that claims more records than the buffer actually holds —
the buffer ending at a record boundary after any number `j < ANCOUNT` of
complete records — makes `parse_from` fail with the count-mismatch decode
error, never a silently shortened record list. -/
theorem parse_count_checked (data : List Nat) :
    (∀ (recs : List Struct_ares_addrttl) (an : Nat),
        parseAReplyCore data = .ok recs → read16 data 6 = some an →
        recs.length ≤ an ∧ 11 * an + 12 ≤ data.length)
    ∧ (∀ qd an j pos0 pos : Nat,
        12 ≤ data.length → read16 data 4 = some qd → read16 data 6 = some an →
        skipQuestions data (data.length + 1) qd 12 = .ok pos0 →
        walkRRs data (data.length + 1) j pos0 = .ok pos →
        j < an → data.length ≤ pos →
        AResults.parse_from data = Except.error AresError.CountMismatch) := by
  constructor
  · intro recs an hok han
    unfold parseAReplyCore at hok
    split at hok
    · exact absurd hok (by simp)
    next h12 =>
      split at hok
      next qd an2 hq4 hq6 =>
        rw [han] at hq6
        simp only [Option.some.injEq] at hq6
        split at hok
        next => exact absurd hok (by simp)
        next pos hq =>
          have hsq := skipQuestions_bounds data (data.length + 1) qd 12 pos hq
          have hrr := parseRRs_bounds data (data.length + 1) an2 pos recs
            (hsq.2 (by omega)) hok
          omega
      next => exact absurd hok (by simp)
  · intro qd an j pos0 pos h12 hqd han hq hwalk hjan hple
    have hloc : parseRRs data (data.length + 1) (an - j) pos
        = .error .CountMismatch := by
      obtain ⟨m, hm⟩ : ∃ m, an - j = m + 1 := ⟨an - j - 1, by omega⟩
      rw [hm, parseRRs, if_pos hple]
    have hall := parseRRs_walk_error data (data.length + 1) j pos0 pos (an - j)
      .CountMismatch hwalk hloc
    rw [show j + (an - j) = an from by omega] at hall
    have hcore : parseAReplyCore data = .error .CountMismatch := by
      unfold parseAReplyCore
      rw [if_neg (by omega)]
      simp only [hqd, han, hq, hall]
    simp only [AResults.parse_from, ares_parse_a_reply, hcore]
    rfl

/-- Witness for C7: a reply with ANCOUNT 2 that ends at a record boundary
after one complete record is rejected as a count mismatch, as is the
bare-header reply with ANCOUNT 1 and no records; the two-record reply
respects the count bound. -/
theorem parse_count_checked_witness :
    AResults.parse_from oneOfTwoReply = Except.error AresError.CountMismatch
    ∧ AResults.parse_from headerOnlyReply = Except.error AresError.CountMismatch
    ∧ twoRecRecords.length ≤ 2
    ∧ 11 * 2 + 12 ≤ twoRecordReply.length :=
  ⟨(parse_count_checked oneOfTwoReply).2 0 2 1 12 27 (by decide) rfl rfl rfl
      rfl (by decide) (by decide),
   (parse_count_checked headerOnlyReply).2 0 1 0 12 12 (by decide) rfl rfl rfl
      rfl (by decide) (by decide),
   ((parse_count_checked twoRecordReply).1 twoRecRecords 2 rfl rfl).1,
   ((parse_count_checked twoRecordReply).1 twoRecRecords 2 rfl rfl).2⟩

